import Mathlib

/-
Verification of the instance lifecycle controller of the toadbox-manager
repository (src/toadbox-manager/src/toadbox_manager/__init__.py).

The Python module is shallowly embedded: the dataclass `ToadboxInstance`
becomes a Lean structure, the JSON registry file becomes an explicit
association-list JSON value, and the stateful methods of
`InstanceManagerApp` become pure functions over an explicit application
state (in-memory registry plus the persisted registry file).  External
processes (docker compose invocations) are modelled by an outcome oracle
`ProcOutcome` passed to each function: the source code only observes the
exit code, captured stdout/stderr, and the two exception classes it
catches (`subprocess.TimeoutExpired` and `OSError`), so an invocation is
fully described by one of those three outcomes.
-/

/-- Lifecycle states of an instance (`class InstanceStatus(Enum)`). -/
inductive InstanceStatus where
  | stopped
  | running
  | starting
  | stopping
  | error
deriving DecidableEq, Repr

/-- The string tag of each status (the Python enum member value). -/
def InstanceStatus.value : InstanceStatus → String
  | .stopped => "stopped"
  | .running => "running"
  | .starting => "starting"
  | .stopping => "stopping"
  | .error => "error"

/-- `InstanceStatus(s)`: Python enum lookup by value.  An unknown tag raises
`ValueError` in Python; here it returns `none`. -/
def InstanceStatus.ofValue (s : String) : Option InstanceStatus :=
  if s = "stopped" then some .stopped
  else if s = "running" then some .running
  else if s = "starting" then some .starting
  else if s = "stopping" then some .stopping
  else if s = "error" then some .error
  else none

theorem InstanceStatus.ofValue_value (s : InstanceStatus) :
    InstanceStatus.ofValue s.value = some s := by
  cases s <;> rfl

/-- `@dataclass class ToadboxInstance`, with the source's field order and
defaults.  `service_name` and `hostname` are computed properties, not
fields. -/
structure ToadboxInstance where
  name : String
  workspace_folder : String
  cpu_cores : Nat := 2
  memory_mb : Nat := 4096
  priority : String := "low"
  ssh_port : Nat := 2222
  vnc_port : Nat := 5901
  puid : Nat := 1000
  pgid : Nat := 1000
  status : InstanceStatus := .stopped
  compose_file : Option String := none
  container_id : Option String := none
deriving DecidableEq, Repr

/-- Split a character list on a separator character (the pieces between
separators, in order; empty pieces kept). -/
def splitOnChar (sep : Char) : List Char → List (List Char)
  | [] => [[]]
  | c :: cs =>
    let r := splitOnChar sep cs
    if c = sep then [] :: r
    else
      match r with
      | [] => [[c]]
      | s :: rest => (c :: s) :: rest

/-- `Path(p).name`: the base name of a path — the last non-empty component
of the `/`-separated path (pathlib drops trailing separators and empty
components). -/
def pathName (p : String) : String :=
  String.mk (((splitOnChar '/' p.data).filter (fun s => s ≠ [])).getLastD [])

/-- `ToadboxInstance.service_name`:
`Path(self.workspace_folder).name.replace('-', '_').lower()` — replacing
a single-character pattern is a character map, followed by
lowercasing. -/
def ToadboxInstance.service_name (i : ToadboxInstance) : String :=
  String.mk (((pathName i.workspace_folder).data.map
    (fun c => if c = '-' then '_' else c)).map Char.toLower)

/-- `ToadboxInstance.hostname`: `f"toadbox-{folder_name}"`. -/
def ToadboxInstance.hostname (i : ToadboxInstance) : String :=
  "toadbox-" ++ pathName i.workspace_folder

/-- JSON values as stored in the registry file.  Python dicts preserve
insertion order, so an object is an association list. -/
inductive JValue where
  | jstr : String → JValue
  | jnum : Nat → JValue
  | jnull : JValue
  | jobj : List (String × JValue) → JValue

/-- Dictionary key lookup (`data[k]` / `k in data`). -/
def lookupKey (k : String) : List (String × JValue) → Option JValue
  | [] => none
  | kv :: rest => if kv.1 = k then some kv.2 else lookupKey k rest

/-- An optional string field serializes to a JSON string or `null`. -/
def optStrJ : Option String → JValue
  | none => .jnull
  | some s => .jstr s

/-- `ToadboxInstance.to_dict`: `asdict(self)` (all fields, in declaration
order) with `status` replaced by its string tag. -/
def ToadboxInstance.to_dict (i : ToadboxInstance) : List (String × JValue) :=
  [("name", .jstr i.name),
   ("workspace_folder", .jstr i.workspace_folder),
   ("cpu_cores", .jnum i.cpu_cores),
   ("memory_mb", .jnum i.memory_mb),
   ("priority", .jstr i.priority),
   ("ssh_port", .jnum i.ssh_port),
   ("vnc_port", .jnum i.vnc_port),
   ("puid", .jnum i.puid),
   ("pgid", .jnum i.pgid),
   ("status", .jstr i.status.value),
   ("compose_file", optStrJ i.compose_file),
   ("container_id", optStrJ i.container_id)]

/-- The dataclass field names: `cls(**data)` accepts exactly these keyword
arguments and raises `TypeError` for any other key. -/
def dataclassKeys : List String :=
  ["name", "workspace_folder", "cpu_cores", "memory_mb", "priority",
   "ssh_port", "vnc_port", "puid", "pgid", "status", "compose_file",
   "container_id"]

/-- Read an optional `Nat` field: absent means the dataclass default. -/
def getNatField (k : String) (dflt : Nat) (d : List (String × JValue)) : Option Nat :=
  match lookupKey k d with
  | none => some dflt
  | some (.jnum n) => some n
  | some _ => none

/-- Read an optional `String` field: absent means the dataclass default. -/
def getStrField (k : String) (dflt : String) (d : List (String × JValue)) : Option String :=
  match lookupKey k d with
  | none => some dflt
  | some (.jstr s) => some s
  | some _ => none

/-- Read an `Option String` field (default `None`). -/
def getOptStrField (k : String) (d : List (String × JValue)) : Option (Option String) :=
  match lookupKey k d with
  | none => some none
  | some .jnull => some none
  | some (.jstr s) => some (some s)
  | some _ => none

/-- Read a required `String` field: absent raises `TypeError` in
`cls(**data)`. -/
def getReqStrField (k : String) (d : List (String × JValue)) : Option String :=
  match lookupKey k d with
  | some (.jstr s) => some s
  | _ => none

/-- `ToadboxInstance.from_dict`.  Mirrors the source: parse `status` if
present (missing defaults to `stopped`), pop the computed-property keys
`service_name` and `hostname`, then `cls(**data)` — which raises
`TypeError` (here: `none`) when any remaining key is not a dataclass
field.  The Python dataclass performs no runtime type validation; the
typed field readers below return `none` on a type mismatch, and every
claim evaluates them on well-typed values only. -/
def ToadboxInstance.from_dict (d : List (String × JValue)) : Option ToadboxInstance :=
  let statusParsed : Option InstanceStatus :=
    match lookupKey "status" d with
    | none => some .stopped
    | some (.jstr s) => InstanceStatus.ofValue s
    | some _ => none
  match statusParsed with
  | none => none
  | some st =>
    let d1 := d.filter (fun kv => kv.1 != "service_name" && kv.1 != "hostname")
    if d1.all (fun kv => dataclassKeys.contains kv.1) then
      match getReqStrField "name" d1, getReqStrField "workspace_folder" d1,
            getNatField "cpu_cores" 2 d1, getNatField "memory_mb" 4096 d1,
            getStrField "priority" "low" d1, getNatField "ssh_port" 2222 d1,
            getNatField "vnc_port" 5901 d1, getNatField "puid" 1000 d1,
            getNatField "pgid" 1000 d1, getOptStrField "compose_file" d1,
            getOptStrField "container_id" d1 with
      | some nm, some wf, some cc, some mm, some pr, some sp, some vp,
        some pu, some pg, some cf, some ci =>
          some ⟨nm, wf, cc, mm, pr, sp, vp, pu, pg, st, cf, ci⟩
      | _, _, _, _, _, _, _, _, _, _, _ => none
    else none

theorem from_dict_to_dict (i : ToadboxInstance) :
    ToadboxInstance.from_dict i.to_dict = some i := by
  cases i with
  | mk nm wf cc mm pr sp vp pu pg st cf ci =>
    cases st <;> cases cf <;> cases ci <;> rfl

/-- The in-memory registry `self.instances : Dict[str, ToadboxInstance]`. -/
abbrev Registry := List (String × ToadboxInstance)

/-- `InstanceManagerApp.save_config`: the JSON document written to
`~/.toadbox-manager.json` — `{"instances": {name: instance.to_dict()}}`. -/
def save_config (r : Registry) : JValue :=
  .jobj [("instances", .jobj (r.map (fun p => (p.1, JValue.jobj p.2.to_dict))))]

/-- The dict comprehension in `load_config`: build each record with
`from_dict`; any failure aborts the whole load (the surrounding
`except` then leaves the previous registry in place). -/
def loadInstances : List (String × JValue) → Option Registry
  | [] => some []
  | p :: rest =>
    match p.2 with
    | .jobj d =>
      match ToadboxInstance.from_dict d, loadInstances rest with
      | some i, some r => some ((p.1, i) :: r)
      | _, _ => none
    | _ => none

/-- `InstanceManagerApp.load_config` applied to the parsed file content:
`data.get('instances', {})` then a dict comprehension over `from_dict`. -/
def load_config (v : JValue) : Option Registry :=
  match v with
  | .jobj entries =>
    match lookupKey "instances" entries with
    | none => some []
    | some (.jobj insts) => loadInstances insts
    | some _ => none
  | _ => none

theorem loadInstances_save (r : Registry) :
    loadInstances (r.map (fun p => (p.1, JValue.jobj p.2.to_dict))) = some r := by
  induction r with
  | nil => rfl
  | cons p rest ih =>
    simp [loadInstances, from_dict_to_dict, ih]

/-- `deploy.resources.limits` of a compose service. -/
structure ResourceLimits where
  cpus : String
  memory : String
deriving DecidableEq, Repr

/-- One service entry of the generated compose document. -/
structure ComposeService where
  image : String
  container_name : String
  hostname : String
  restart : String
  environment : List String
  ports : List String
  volumes : List String
  networks : List String
  privileged : Bool
  limits : ResourceLimits
deriving DecidableEq, Repr

/-- The compose document produced by `generate_docker_compose`.  Top-level
`volumes` maps each named volume to its `name` field; `networks` maps each
network to its `driver`. -/
structure ComposeConfig where
  version : String
  services : List (String × ComposeService)
  volumes : List (String × String)
  networks : List (String × String)
deriving DecidableEq, Repr

/-- `InstanceManagerApp.generate_docker_compose`: the per-instance compose
document (one service keyed by `service_name`). -/
def generate_docker_compose (inst : ToadboxInstance) : ComposeConfig :=
  let sn := inst.service_name
  { version := "3.8"
  , services := [(sn,
      { image := "toadbox"
      , container_name := inst.hostname
      , hostname := inst.hostname
      , restart := "unless-stopped"
      , environment :=
          ["PUID=" ++ toString inst.puid,
           "PGID=" ++ toString inst.pgid,
           "TERM=xterm-256color",
           "DISPLAY=:1"]
      , ports :=
          [toString inst.ssh_port ++ ":22",
           toString inst.vnc_port ++ ":5901"]
      , volumes :=
          [inst.workspace_folder ++ ":/workspace",
           sn ++ "_docker_data:/var/lib/docker",
           sn ++ "_home:/home/user"]
      , networks := ["toadbox_network"]
      , privileged := true
      , limits := { cpus := toString inst.cpu_cores
                  , memory := toString inst.memory_mb ++ "M" } })]
  , volumes := [(sn ++ "_docker_data", sn ++ "_docker_data"),
                (sn ++ "_home", sn ++ "_home")]
  , networks := [("toadbox_network", "bridge")] }

/-- The ports list under a given service key of a compose document. -/
def servicePorts (c : ComposeConfig) (k : String) : List String :=
  match c.services.find? (fun p => p.1 == k) with
  | some p => p.2.ports
  | none => []

/-- ASCII whitespace as stripped by Python's `str.strip()`. -/
def isSpaceChar (c : Char) : Bool :=
  c == ' ' || c == '\t' || c == '\n' || c == '\r'

/-- Python `str.strip()`: drop leading and trailing whitespace. -/
def pyStrip (s : String) : String :=
  String.mk (((s.data.dropWhile isSpaceChar).reverse.dropWhile isSpaceChar).reverse)

/-- Outcome of one external process invocation, as observed by the source:
exit code with captured stdout/stderr, a `subprocess.TimeoutExpired`
(which still carries the partial output), or an `OSError` while
spawning. -/
inductive ProcOutcome where
  | ret : Int → String → String → ProcOutcome
  | timedOut : String → String → ProcOutcome
  | osError : String → ProcOutcome
deriving DecidableEq, Repr

/-- The `docker compose version` probe in `run_docker_compose`: the plugin
is used when the `docker` binary exists and the probe exits 0; an
`OSError` or timeout during the probe just disables the plugin. -/
def probeSaysPlugin (dockerFound : Bool) (probe : ProcOutcome) : Bool :=
  dockerFound && (match probe with
                  | .ret rc _ _ => rc == 0
                  | _ => false)

/-- `InstanceManagerApp.run_docker_compose`.  `dockerFound` and
`dockerComposeFound` model `shutil.which` on the two binaries, `probe` the
plugin version probe, `main` the compose invocation itself.  The compose
file is materialized first when missing (`save_docker_compose`), which
does not affect the returned pair.  Every failure mode the source catches
is an oracle constructor, so the embedding is a total function: the
source never lets tool absence, a non-zero exit, a timeout, or a spawn
error escape as an exception. -/
def run_docker_compose (dockerFound dockerComposeFound : Bool)
    (probe main : ProcOutcome) : Bool × String :=
  if probeSaysPlugin dockerFound probe || dockerComposeFound then
    match main with
    | .ret rc out err =>
      (rc == 0, if pyStrip err ≠ "" then pyStrip err else pyStrip out)
    | .timedOut _ _ => (false, "compose timed out")
    | .osError e => (false, "Failed to run compose: " ++ e)
  else
    (false, "Neither \x27docker compose\x27 nor \x27docker-compose\x27 is available")

/-- Whether `needle` occurs at the start of `hay`. -/
def strStarts : List Char → List Char → Bool
  | [], _ => true
  | _ :: _, [] => false
  | n :: ns, h :: hs => n == h && strStarts ns hs

/-- Whether `needle` occurs anywhere in `hay` (Python's `in` on strings;
the empty needle occurs in everything). -/
def strOccurs : List Char → List Char → Bool
  | needle, [] => strStarts needle []
  | needle, h :: hs => strStarts needle (h :: hs) || strOccurs needle hs

/-- `instance.service_name in result.stdout`: Python substring test. -/
def serviceListedRunning (inst : ToadboxInstance) (out : String) : Bool :=
  strOccurs inst.service_name.data out.data

/-- The tail of `get_compose_status` once a `ps` command line was chosen:
exit code 0 with the service name in stdout means running, any other exit
means stopped, and a raised timeout or spawn error is caught by the
enclosing `except` and becomes `error`. -/
def psResult (inst : ToadboxInstance) (ps : ProcOutcome) : InstanceStatus :=
  match ps with
  | .ret rc out _ =>
    if rc == 0 && serviceListedRunning inst out then .running else .stopped
  | _ => .error

/-- Whether `get_compose_status` reaches the `ps` invocation at all: with
the `docker` binary present the probe must return (a timeout there
propagates to the `except` clause), and a non-zero probe falls back to
the standalone binary; without `docker` only the standalone binary can be
selected. -/
def psReached (dockerFound dockerComposeFound : Bool) (probe : ProcOutcome) : Bool :=
  if dockerFound then
    match probe with
    | .ret rc _ _ => rc == 0 || dockerComposeFound
    | _ => false
  else dockerComposeFound

/-- `InstanceManagerApp.get_compose_status`.  No compose file means
`stopped` without consuming any process oracle; otherwise the probe and
`ps` outcomes determine the observed status. -/
def get_compose_status (inst : ToadboxInstance) (dockerFound dockerComposeFound : Bool)
    (probe ps : ProcOutcome) : InstanceStatus :=
  match inst.compose_file with
  | none => .stopped
  | some _ =>
    if dockerFound then
      match probe with
      | .ret rc _ _ =>
        if rc == 0 || dockerComposeFound then psResult inst ps else .error
      | _ => .error
    else if dockerComposeFound then psResult inst ps else .error

/-- `name in self.instances`. -/
def containsKey (k : String) (r : Registry) : Bool :=
  r.any (fun p => p.1 == k)

/-- The status of the record stored under a name, if any. -/
def statusOf (k : String) (r : Registry) : Option InstanceStatus :=
  (r.find? (fun p => p.1 == k)).map (fun p => p.2.status)

/-- `instance.status = s` for the registered instance object: the record
is mutated in place, so its position in the dict is unchanged. -/
def setStatus (k : String) (s : InstanceStatus) (r : Registry) : Registry :=
  r.map (fun p => if p.1 == k then (p.1, { p.2 with status := s }) else p)

/-- `del self.instances[name]`. -/
def removeKey (k : String) (r : Registry) : Registry :=
  r.filter (fun p => p.1 != k)

/-- The application state the lifecycle controller owns: the in-memory
registry and the content of the persisted registry file.  `save_config`
copies the former onto the latter. -/
structure AppState where
  instances : Registry
  disk : Registry
deriving DecidableEq, Repr

/-- `InstanceManagerApp.create_instance`: reject a duplicate name (error
shown, nothing mutated); otherwise insert the request record as given and
persist.  The source performs no port-uniqueness check. -/
def create_instance (st : AppState) (inst : ToadboxInstance) : AppState :=
  if containsKey inst.name st.instances then st
  else
    let m := st.instances ++ [(inst.name, inst)]
    ⟨m, m⟩

/-- `InstanceManagerApp.start_instance_async`, with the `up` invocation's
result passed as `runResult` and the follow-up `get_compose_status`
observation as `observed`.  On success the observed status is stored and
`save_config` runs; on failure the status becomes `error` with no
`save_config`. -/
def start_instance_async (st : AppState) (k : String)
    (runResult : Bool × String) (observed : InstanceStatus) : AppState :=
  let m1 := setStatus k .starting st.instances
  if runResult.1 then
    let m2 := setStatus k observed m1
    ⟨m2, m2⟩
  else
    ⟨setStatus k .error m1, st.disk⟩

/-- `InstanceManagerApp.stop_instance_async`: mirrors start with
`stopping` and a fixed `stopped` on success; failure sets `error` without
persisting. -/
def stop_instance_async (st : AppState) (k : String)
    (runResult : Bool × String) : AppState :=
  let m1 := setStatus k .stopping st.instances
  if runResult.1 then
    let m2 := setStatus k .stopped m1
    ⟨m2, m2⟩
  else
    ⟨setStatus k .error m1, st.disk⟩

/-- `InstanceManagerApp.delete_instance_async`.  A running instance is
first stopped (`stopR` is that invocation's result).  Then compose `down`
runs through `run_docker_compose` (`downR`, never raising); when it
succeeds, a raw `subprocess.run([...,"down","-v"], timeout=30)` tears
down the volumes — that call is not wrapped in its own handler, so a
`TimeoutExpired`/`OSError` there (`volRaises`) jumps to the enclosing
`except`, skipping both the registry removal and `save_config`.
Otherwise the record is removed and the registry persisted. -/
def delete_instance_async (st : AppState) (k : String)
    (stopR downR : Bool × String) (volRaises : Bool) : AppState :=
  let st1 := if statusOf k st.instances = some .running
             then stop_instance_async st k stopR else st
  if downR.1 && volRaises then st1
  else if containsKey k st1.instances then
    let m := removeKey k st1.instances
    ⟨m, m⟩
  else st1

/-- One external command invocation, as two trace events: the moment
`subprocess.run` starts the process and the moment it returns.  An
invocation is in flight between its begin and its end. -/
inductive ExtEvent where
  | begins : String → String → ExtEvent
  | ends : String → String → ExtEvent
deriving DecidableEq, Repr

/-- A synchronous `subprocess.run(...)` for an instance: the coroutine
blocks the event loop's only thread until the call returns, so in that
coroutine's own trace the begin and end of the invocation are
adjacent. -/
def blockingInvoke (k action : String) : List ExtEvent :=
  [.begins k action, .ends k action]

/-- External invocations performed by `start_instance_async` for instance
`k`: the compose `up`, then — when it succeeded — the status `ps` probe
of `get_compose_status`. -/
def startTaskEvents (k : String) (ok : Bool) : List ExtEvent :=
  blockingInvoke k "up" ++ (if ok then blockingInvoke k "ps" else [])

/-- External invocations performed by `stop_instance_async`: the compose
`stop`. -/
def stopTaskEvents (k : String) : List ExtEvent :=
  blockingInvoke k "stop"

/-- External invocations performed by `delete_instance_async`: the inline
stop when the instance is running (its single `await` calls a coroutine
with no awaits of its own, so it runs without yielding), the compose
`down`, and — when that succeeded — the raw volume teardown. -/
def deleteTaskEvents (k : String) (running downOk : Bool) : List ExtEvent :=
  (if running then stopTaskEvents k else []) ++ blockingInvoke k "down" ++
    (if downOk then blockingInvoke k "down -v" else [])

/-- External invocations performed by `refresh_statuses_async`: one
status probe per registered instance. -/
def refreshTaskEvents : List String → List ExtEvent
  | [] => []
  | k :: ks => blockingInvoke k "ps" ++ refreshTaskEvents ks

/-- A lifecycle operation scheduled with `asyncio.create_task`
(`create_instance` itself is synchronous and runs no external
command). -/
inductive LifecycleTask where
  | startTask : String → Bool → LifecycleTask
  | stopTask : String → LifecycleTask
  | deleteTask : String → Bool → Bool → LifecycleTask
  | refreshTask : List String → LifecycleTask
deriving DecidableEq, Repr

/-- The external-invocation trace a lifecycle coroutine emits when it
runs to completion. -/
def taskEvents : LifecycleTask → List ExtEvent
  | .startTask k ok => startTaskEvents k ok
  | .stopTask k => stopTaskEvents k
  | .deleteTask k running downOk => deleteTaskEvents k running downOk
  | .refreshTask names => refreshTaskEvents names

/-- A coroutine as the event loop sees it: the list of atomic segments
between its `await` points — only there can the single-threaded loop
switch to another task.  None of the lifecycle coroutines contains an
await that yields (`delete`'s single `await` invokes a coroutine that
itself never awaits, so it runs inline), so each one is a single atomic
segment. -/
def taskCoroutine (t : LifecycleTask) : List (List ExtEvent) :=
  [taskEvents t]

/-- `InstanceManagerApp.action_start_instance`: with a selected instance,
`asyncio.create_task` appends the start coroutine to the event loop's
tasks; with none an error is shown and nothing is scheduled. -/
def action_start_instance (sel : Option ToadboxInstance) (ok : Bool)
    (tasks : List LifecycleTask) : List LifecycleTask :=
  match sel with
  | none => tasks
  | some i => tasks ++ [.startTask i.name ok]

/-- `InstanceManagerApp.action_stop_instance`: the same
`asyncio.create_task` scheduling for the stop coroutine. -/
def action_stop_instance (sel : Option ToadboxInstance)
    (tasks : List LifecycleTask) : List LifecycleTask :=
  match sel with
  | none => tasks
  | some i => tasks ++ [.stopTask i.name]

/-- The traces a single-threaded cooperative scheduler can produce over a
set of coroutines: repeatedly pick any unfinished coroutine and run its
next segment atomically.  Between segments — await points — the loop may
run any other task; within a segment it cannot switch, because the
thread is executing (or blocked in) that segment.  The asyncio FIFO loop
is one such schedule. -/
inductive IsSchedule : List (List (List ExtEvent)) → List ExtEvent → Prop where
  | nil : IsSchedule [] []
  | drop : ∀ (csa csb : List (List (List ExtEvent))) (tr : List ExtEvent),
      IsSchedule (csa ++ csb) tr → IsSchedule (csa ++ [] :: csb) tr
  | step : ∀ (csa csb : List (List (List ExtEvent))) (seg : List ExtEvent)
      (rest : List (List ExtEvent)) (tr : List ExtEvent),
      IsSchedule (csa ++ rest :: csb) tr →
      IsSchedule (csa ++ (seg :: rest) :: csb) (seg ++ tr)

/-- Trace validity state machine: scanning left to right with `inCall`
recording whether an invocation is open, a trace is accepted when no
invocation begins while another is open and every invocation is
closed. -/
def wellSerializedAux (inCall : Bool) : List ExtEvent → Bool
  | [] => !inCall
  | .begins _ _ :: rest => !inCall && wellSerializedAux true rest
  | .ends _ _ :: rest => inCall && wellSerializedAux false rest

/-- A trace in which at most one external invocation is ever in flight:
each invocation ends before the next one begins. -/
def wellSerialized (tr : List ExtEvent) : Bool :=
  wellSerializedAux false tr

def isBeginEvent : ExtEvent → Bool
  | .begins _ _ => true
  | _ => false

def isEndEvent : ExtEvent → Bool
  | .ends _ _ => true
  | _ => false

/-- Invocations started within a trace prefix. -/
def numBegins (tr : List ExtEvent) : Nat := tr.countP isBeginEvent

/-- Invocations finished within a trace prefix. -/
def numEnds (tr : List ExtEvent) : Nat := tr.countP isEndEvent

theorem containsKey_cons (p : String × ToadboxInstance) (r : Registry) (k : String) :
    containsKey k (p :: r) = (p.1 == k || containsKey k r) := rfl

theorem statusOf_cons (p : String × ToadboxInstance) (r : Registry) (k : String) :
    statusOf k (p :: r) = if p.1 == k then some p.2.status else statusOf k r := by
  by_cases h : (p.1 == k) = true
  · rw [if_pos h]
    show (List.find? (fun q => q.1 == k) (p :: r)).map (fun q => q.2.status) = _
    rw [List.find?_cons_of_pos r h]
    rfl
  · rw [if_neg h]
    show (List.find? (fun q => q.1 == k) (p :: r)).map (fun q => q.2.status) = _
    rw [List.find?_cons_of_neg r h]
    rfl

theorem setStatus_cons (j : String) (s : InstanceStatus) (p : String × ToadboxInstance)
    (r : Registry) :
    setStatus j s (p :: r) =
      (if p.1 == j then (p.1, { p.2 with status := s }) else p) :: setStatus j s r := rfl

theorem removeKey_cons (k : String) (p : String × ToadboxInstance) (r : Registry) :
    removeKey k (p :: r) =
      if p.1 != k then p :: removeKey k r else removeKey k r := by
  simp only [removeKey, List.filter_cons]

theorem containsKey_setStatus (k j : String) (s : InstanceStatus) (r : Registry) :
    containsKey k (setStatus j s r) = containsKey k r := by
  induction r with
  | nil => rfl
  | cons p rest ih =>
    rw [setStatus_cons]
    by_cases h : (p.1 == j) = true
    · rw [if_pos h, containsKey_cons, containsKey_cons, ih]
    · rw [if_neg h, containsKey_cons, containsKey_cons, ih]

theorem statusOf_setStatus_self (k : String) (s : InstanceStatus) (r : Registry)
    (h : containsKey k r = true) : statusOf k (setStatus k s r) = some s := by
  induction r with
  | nil => exact absurd h (by simp [containsKey])
  | cons p rest ih =>
    rw [setStatus_cons]
    by_cases hp : (p.1 == k) = true
    · rw [if_pos hp]
      simp [statusOf_cons, hp]
    · have hbeq : (p.1 == k) = false := by simpa using hp
      rw [containsKey_cons, hbeq] at h
      simp only [Bool.false_or] at h
      rw [if_neg hp, statusOf_cons, if_neg hp]
      exact ih h

theorem containsKey_removeKey (k : String) (r : Registry) :
    containsKey k (removeKey k r) = false := by
  induction r with
  | nil => rfl
  | cons p rest ih =>
    rw [removeKey_cons]
    by_cases hp : (p.1 == k) = true
    · have hb : (p.1 != k) = false := by simp [bne, hp]
      rw [hb, if_neg Bool.false_ne_true]
      exact ih
    · have hbeq : (p.1 == k) = false := by simpa using hp
      have hb : (p.1 != k) = true := by simp [bne, hbeq]
      rw [hb, if_pos rfl, containsKey_cons, hbeq, ih]
      rfl

theorem statusOf_append_self (k : String) (i : ToadboxInstance) (r : Registry)
    (h : containsKey k r = false) :
    statusOf k (r ++ [(k, i)]) = some i.status := by
  induction r with
  | nil => simp [statusOf_cons]
  | cons p rest ih =>
    rw [containsKey_cons, Bool.or_eq_false_iff] at h
    rw [List.cons_append, statusOf_cons, if_neg (by simp [h.1]), ih h.2]

/-- The instance `one` used by the spec's compose example
(`ssh_port=2222`, remote-desktop port 3390); the record's only
remote-desktop port field is `vnc_port`. -/
def instOne : ToadboxInstance :=
  { name := "one", workspace_folder := "/work/one", ssh_port := 2222, vnc_port := 3390 }

/-- The instance `two` of the same example (`ssh_port=2223`,
remote-desktop port 3391). -/
def instTwo : ToadboxInstance :=
  { name := "two", workspace_folder := "/work/two", ssh_port := 2223, vnc_port := 3391 }

/-- A consistent application state holding exactly `instOne`, persisted. -/
def stOne : AppState := ⟨[("one", instOne)], [("one", instOne)]⟩

/-- C6: for every registry whose records satisfy the invariants (in
particular distinct names, so the association list is a dict), saving to
the registry file and loading back yields the same registry, and the
status enum round-trips losslessly through its string tag. -/
theorem c6_registry_round_trip (r : Registry) (_hkeys : (r.map Prod.fst).Nodup) :
    load_config (save_config r) = some r ∧
    ∀ s : InstanceStatus, InstanceStatus.ofValue s.value = some s := by
  refine ⟨?_, InstanceStatus.ofValue_value⟩
  exact loadInstances_save r

/-- C6 witness: the round trip evaluated on a concrete two-record
registry. -/
theorem c6_registry_round_trip_witness :
    (([("one", instOne), ("two", instTwo)] : Registry).map Prod.fst).Nodup ∧
    load_config (save_config [("one", instOne), ("two", instTwo)]) =
      some [("one", instOne), ("two", instTwo)] :=
  ⟨by decide, (c6_registry_round_trip [("one", instOne), ("two", instTwo)] (by decide)).1⟩

/-- Two records with distinct names and distinct workspace folders whose
folders share the base name `proj-x`. -/
def instProjA : ToadboxInstance :=
  { name := "alpha", workspace_folder := "/home/a/proj-x" }

def instProjB : ToadboxInstance :=
  { name := "beta", workspace_folder := "/srv/b/proj-x" }

/-- The compose command line built by `run_docker_compose` (plugin form):
the `-p` project name passed to the driver is the instance's
`service_name`. -/
def composeCmd (bin composeFilePath : String) (inst : ToadboxInstance)
    (action : String) : List String :=
  [bin, "compose", "-f", composeFilePath, "-p", inst.service_name, action]

/-- C10: `service_name` depends only on the base name of
`workspace_folder` (lowercased, hyphens to underscores), so two records
with distinct names and distinct folders sharing a base name get the same
`service_name` and hence the identical `-p` project argument. -/
theorem c10_service_name_collision :
    (∀ r1 r2 : ToadboxInstance,
        pathName r1.workspace_folder = pathName r2.workspace_folder →
        r1.service_name = r2.service_name) ∧
    (instProjA.name ≠ instProjB.name ∧
     instProjA.workspace_folder ≠ instProjB.workspace_folder ∧
     instProjA.service_name = instProjB.service_name ∧
     ∀ bin f act, composeCmd bin f instProjA act = composeCmd bin f instProjB act) := by
  constructor
  · intro r1 r2 h
    simp [ToadboxInstance.service_name, h]
  · refine ⟨by decide, by decide, by decide, ?_⟩
    intro bin f act
    simp [composeCmd]
    decide

/-- C10 witness: the collision instantiated at the two concrete records. -/
theorem c10_service_name_collision_witness :
    pathName instProjA.workspace_folder = pathName instProjB.workspace_folder ∧
    instProjA.service_name = instProjB.service_name :=
  ⟨by decide, c10_service_name_collision.1 instProjA instProjB (by decide)⟩

/-- A create request whose `ssh_port` collides with `instOne`'s but whose
name is fresh. -/
def instClash : ToadboxInstance :=
  { name := "oneclone", workspace_folder := "/w/oneclone", ssh_port := 2222 }

/-- C1 counterexample: the claim requires a create request whose
`ssh_port` equals an existing record's to be rejected with the registry
and its persisted file unchanged.  `create_instance` performs no port
check: the colliding request is inserted and persisted. -/
theorem c1_create_counterexample :
    instOne.ssh_port = instClash.ssh_port ∧
    containsKey instClash.name stOne.instances = false ∧
    (create_instance stOne instClash).instances =
      stOne.instances ++ [(instClash.name, instClash)] ∧
    (create_instance stOne instClash).disk =
      (create_instance stOne instClash).instances := by
  refine ⟨rfl, by decide, by decide, by decide⟩

/-- C1 (amended): `create_instance` rejects only a duplicate name, leaving
both the registry and the persisted file untouched; with a fresh name the
request record is appended unconditionally (no port-conflict check
exists) and the registry is persisted, and since the creation dialog
always builds the request with the default `stopped` status, the inserted
record is `stopped`. -/
theorem c1_create_validation (st : AppState) (inst : ToadboxInstance) :
    (containsKey inst.name st.instances = true → create_instance st inst = st) ∧
    (containsKey inst.name st.instances = false →
      (create_instance st inst).instances = st.instances ++ [(inst.name, inst)] ∧
      (create_instance st inst).disk = (create_instance st inst).instances ∧
      (inst.status = .stopped →
        statusOf inst.name (create_instance st inst).instances = some .stopped)) := by
  constructor
  · intro h
    simp [create_instance, h]
  · intro h
    refine ⟨by simp [create_instance, h], by simp [create_instance, h], ?_⟩
    intro hs
    simp only [create_instance, h, Bool.false_eq_true, if_false]
    rw [statusOf_append_self inst.name inst st.instances h, hs]

/-- C1 witness: a fresh-name request is inserted and persisted. -/
theorem c1_create_validation_witness :
    containsKey instTwo.name stOne.instances = false ∧
    (create_instance stOne instTwo).instances =
      stOne.instances ++ [(instTwo.name, instTwo)] :=
  ⟨by decide, ((c1_create_validation stOne instTwo).2 (by decide)).1⟩

/-- C2 counterexample: the claim requires the port binding
`"<remote-desktop port>:3389"` under the instance's service entry; for
`instTwo` (remote-desktop port 3391) the generated document's ports are
`["2223:22", "3391:5901"]` — the binding targets container port 5901
(VNC), and `"3391:3389"` does not occur. -/
theorem c2_compose_ports_counterexample :
    servicePorts (generate_docker_compose instTwo) instTwo.service_name =
      ["2223:22", "3391:5901"] ∧
    (servicePorts (generate_docker_compose instTwo) instTwo.service_name).contains
      "3391:3389" = false := by
  refine ⟨by decide, by decide⟩

/-- C2 (amended): `generate_docker_compose` builds a per-instance document
whose single service is keyed by the instance's `service_name` and whose
port bindings are exactly `"<ssh_port>:22"` and `"<vnc_port>:5901"`; in
particular `"2222:22"` is under `one`'s ports and `"3391:5901"` under
`two`'s. -/
theorem c2_compose_ports :
    (∀ inst : ToadboxInstance,
        (generate_docker_compose inst).services.map Prod.fst = [inst.service_name] ∧
        servicePorts (generate_docker_compose inst) inst.service_name =
          [toString inst.ssh_port ++ ":22", toString inst.vnc_port ++ ":5901"]) ∧
    "2222:22" ∈ servicePorts (generate_docker_compose instOne) instOne.service_name ∧
    "3391:5901" ∈ servicePorts (generate_docker_compose instTwo) instTwo.service_name := by
  refine ⟨fun inst => ⟨rfl, ?_⟩, by decide, by decide⟩
  simp [servicePorts, generate_docker_compose]

theorem wellSerializedAux_append (b2 : List ExtEvent)
    (hb : wellSerializedAux false b2 = true) :
    ∀ (a : List ExtEvent) (s : Bool), wellSerializedAux s a = true →
      wellSerializedAux s (a ++ b2) = true := by
  intro a
  induction a with
  | nil =>
    intro s hs
    have hsf : s = false := by simpa [wellSerializedAux] using hs
    subst hsf
    exact hb
  | cons e rest ih =>
    intro s hs
    cases e with
    | begins k act =>
      simp only [wellSerializedAux, Bool.and_eq_true, Bool.not_eq_true'] at hs
      rw [List.cons_append]
      simp only [wellSerializedAux, hs.1, Bool.not_false, Bool.true_and]
      exact ih true hs.2
    | ends k act =>
      simp only [wellSerializedAux, Bool.and_eq_true] at hs
      rw [List.cons_append]
      simp only [wellSerializedAux, hs.1, Bool.true_and]
      exact ih false hs.2

theorem wellSerializedAux_prefix_bound :
    ∀ (pre : List ExtEvent) (s : Bool) (suf : List ExtEvent),
      wellSerializedAux s (pre ++ suf) = true →
      numBegins pre + (if s = true then 1 else 0) ≤ numEnds pre + 1 := by
  intro pre
  induction pre with
  | nil =>
    intro s suf _
    cases s <;> simp [numBegins, numEnds]
  | cons e rest ih =>
    intro s suf h
    cases e with
    | begins k act =>
      rw [List.cons_append] at h
      simp only [wellSerializedAux, Bool.and_eq_true, Bool.not_eq_true'] at h
      obtain ⟨hs, htail⟩ := h
      subst hs
      have h2 := ih true suf htail
      simp [numBegins, numEnds, List.countP_cons, isBeginEvent, isEndEvent] at h2 ⊢
      omega
    | ends k act =>
      rw [List.cons_append] at h
      simp only [wellSerializedAux, Bool.and_eq_true] at h
      obtain ⟨hs, htail⟩ := h
      subst hs
      have h2 := ih false suf htail
      simp [numBegins, numEnds, List.countP_cons, isBeginEvent, isEndEvent] at h2 ⊢
      omega

theorem taskEvents_serialized (t : LifecycleTask) :
    wellSerialized (taskEvents t) = true := by
  cases t with
  | startTask k ok => cases ok <;> rfl
  | stopTask k => rfl
  | deleteTask k running downOk => cases running <;> cases downOk <;> rfl
  | refreshTask names =>
    induction names with
    | nil => rfl
    | cons k ks ih =>
      exact wellSerializedAux_append _ ih (blockingInvoke k "ps") false rfl

theorem schedule_serialized :
    ∀ (cs : List (List (List ExtEvent))) (tr : List ExtEvent),
      IsSchedule cs tr →
      (∀ c ∈ cs, ∀ seg ∈ c, wellSerialized seg = true) →
      wellSerialized tr = true := by
  intro cs tr h
  induction h with
  | nil => intro _; rfl
  | drop csa csb tr h ih =>
    intro hseg
    apply ih
    intro c hc seg hsg
    apply hseg c ?_ seg hsg
    rcases List.mem_append.mp hc with h1 | h1
    · exact List.mem_append.mpr (Or.inl h1)
    · exact List.mem_append.mpr (Or.inr (List.mem_cons_of_mem _ h1))
  | step csa csb seg rest tr h ih =>
    intro hseg
    have hseg1 : wellSerialized seg = true :=
      hseg (seg :: rest) (List.mem_append.mpr (Or.inr (List.mem_cons_self _ _))) seg
        (List.mem_cons_self _ _)
    have hrest : ∀ c ∈ csa ++ rest :: csb, ∀ sg ∈ c, wellSerialized sg = true := by
      intro c hc sg hsg
      rcases List.mem_append.mp hc with h1 | h1
      · exact hseg c (List.mem_append.mpr (Or.inl h1)) sg hsg
      · rcases List.mem_cons.mp h1 with h2 | h2
        · exact hseg (seg :: rest) (List.mem_append.mpr (Or.inr (List.mem_cons_self _ _)))
            sg (List.mem_cons_of_mem _ (h2 ▸ hsg))
        · exact hseg c (List.mem_append.mpr (Or.inr (List.mem_cons_of_mem _ h2))) sg hsg
    exact wellSerializedAux_append tr (ih hrest) seg false hseg1

theorem lifecycle_schedule_bound (ts : List LifecycleTask) (tr : List ExtEvent)
    (hs : IsSchedule (ts.map taskCoroutine) tr) :
    wellSerialized tr = true ∧
    ∀ pre suf, tr = pre ++ suf → numBegins pre ≤ numEnds pre + 1 := by
  have hws : wellSerialized tr = true := by
    apply schedule_serialized _ _ hs
    intro c hc seg hsg
    rcases List.mem_map.mp hc with ⟨t, _, rfl⟩
    have hseg : seg = taskEvents t := by simpa [taskCoroutine] using hsg
    subst hseg
    exact taskEvents_serialized t
  refine ⟨hws, ?_⟩
  intro pre suf htr
  have hb := wellSerializedAux_prefix_bound pre false suf (htr ▸ hws)
  simpa using hb

/-- C4: a second lifecycle operation dispatched for the same name while
one is pending is queued, not interleaved: `asyncio.create_task` only
appends the coroutine to the event loop's tasks, and because no
lifecycle coroutine contains a yielding `await` (each is one atomic
segment whose `subprocess.run` calls block the loop's single thread),
every cooperative schedule of the dispatched tasks produces a trace in
which each external invocation ends before the next begins — so at most
one external `up`/`down` invocation is ever in flight at any time, in
particular at most one per instance. -/
theorem c4_single_inflight (i : ToadboxInstance) (ok : Bool)
    (tasks : List LifecycleTask) (tr : List ExtEvent)
    (hs : IsSchedule ((action_stop_instance (some i)
        (action_start_instance (some i) ok tasks)).map taskCoroutine) tr) :
    wellSerialized tr = true ∧
    ∀ pre suf, tr = pre ++ suf → numBegins pre ≤ numEnds pre + 1 :=
  lifecycle_schedule_bound _ tr hs

/-- C4 witness: a start and a stop both dispatched for instance `one`,
scheduled by the FIFO loop; the trace is serialized and the prefix
ending after the start task's events has at most one more begin than
ends. -/
theorem c4_single_inflight_witness :
    IsSchedule ((action_stop_instance (some instOne)
        (action_start_instance (some instOne) true [])).map taskCoroutine)
      (taskEvents (LifecycleTask.startTask "one" true) ++
        (taskEvents (LifecycleTask.stopTask "one") ++ [])) ∧
    numBegins (taskEvents (LifecycleTask.startTask "one" true)) ≤
      numEnds (taskEvents (LifecycleTask.startTask "one" true)) + 1 := by
  have d1 : IsSchedule ([] ++ [] :: []) ([] : List ExtEvent) :=
    IsSchedule.drop [] [] [] IsSchedule.nil
  have d2 : IsSchedule ([] ++ (taskEvents (LifecycleTask.stopTask "one") :: []) :: [])
      (taskEvents (LifecycleTask.stopTask "one") ++ []) :=
    IsSchedule.step [] [] (taskEvents (LifecycleTask.stopTask "one")) [] [] d1
  have d3 : IsSchedule ([] ++ [] :: [[taskEvents (LifecycleTask.stopTask "one")]])
      (taskEvents (LifecycleTask.stopTask "one") ++ []) :=
    IsSchedule.drop [] [[taskEvents (LifecycleTask.stopTask "one")]]
      (taskEvents (LifecycleTask.stopTask "one") ++ []) d2
  have d4 : IsSchedule
      ([] ++ (taskEvents (LifecycleTask.startTask "one" true) :: []) ::
        [[taskEvents (LifecycleTask.stopTask "one")]])
      (taskEvents (LifecycleTask.startTask "one" true) ++
        (taskEvents (LifecycleTask.stopTask "one") ++ [])) :=
    IsSchedule.step [] [[taskEvents (LifecycleTask.stopTask "one")]]
      (taskEvents (LifecycleTask.startTask "one" true)) []
      (taskEvents (LifecycleTask.stopTask "one") ++ []) d3
  have hsched : IsSchedule ((action_stop_instance (some instOne)
      (action_start_instance (some instOne) true [])).map taskCoroutine)
      (taskEvents (LifecycleTask.startTask "one" true) ++
        (taskEvents (LifecycleTask.stopTask "one") ++ [])) := d4
  refine ⟨hsched, ?_⟩
  exact (c4_single_inflight instOne true [] _ hsched).2
    (taskEvents (LifecycleTask.startTask "one" true))
    (taskEvents (LifecycleTask.stopTask "one") ++ []) rfl

/-- C3 counterexample: from a consistent, persisted state, a start whose
external `up` invocation fails returns control with the in-memory record
at `error` while the persisted file still holds it at `stopped` — the
failure path never calls `save_config`, so memory and disk diverge. -/
theorem c3_persistence_counterexample :
    stOne.instances = stOne.disk ∧
    statusOf "one" (start_instance_async stOne "one" (false, "boom") .running).instances
      = some .error ∧
    statusOf "one" (start_instance_async stOne "one" (false, "boom") .running).disk
      = some .stopped := by
  refine ⟨rfl, by decide, by decide⟩

/-- C3 (amended): after a successful start or stop the in-memory registry
equals the persisted one (the success paths end in `save_config`); after
a failed start or stop the persisted file is left exactly as before while
the in-memory record moves to `error`, so the two diverge until some
later persisting operation. -/
theorem c3_persistence (st : AppState) (k : String) (r : Bool × String)
    (obs : InstanceStatus) :
    (r.1 = true →
      (start_instance_async st k r obs).instances = (start_instance_async st k r obs).disk ∧
      (stop_instance_async st k r).instances = (stop_instance_async st k r).disk) ∧
    (r.1 = false →
      (start_instance_async st k r obs).disk = st.disk ∧
      (stop_instance_async st k r).disk = st.disk) ∧
    (r.1 = false → containsKey k st.instances = true →
      statusOf k (start_instance_async st k r obs).instances = some .error ∧
      statusOf k (stop_instance_async st k r).instances = some .error) := by
  refine ⟨?_, ?_, ?_⟩
  · intro h
    constructor <;> simp [start_instance_async, stop_instance_async, h]
  · intro h
    constructor <;> simp [start_instance_async, stop_instance_async, h]
  · intro h hk
    constructor <;>
      · simp only [start_instance_async, stop_instance_async, h, Bool.false_eq_true,
          if_false]
        exact statusOf_setStatus_self _ _ _ (by rw [containsKey_setStatus]; exact hk)

/-- C3 witness: the amended characterization evaluated at a concrete
failing start. -/
theorem c3_persistence_witness :
    containsKey "one" stOne.instances = true ∧
    statusOf "one" (start_instance_async stOne "one" (false, "x") .running).instances
      = some .error ∧
    (start_instance_async stOne "one" (false, "x") .running).disk = stOne.disk := by
  refine ⟨by decide, ?_, ?_⟩
  · exact ((c3_persistence stOne "one" (false, "x") .running).2.2 rfl (by decide)).1
  · exact ((c3_persistence stOne "one" (false, "x") .running).2.1 rfl).1

/-- C5 counterexample: deleting `one` when the compose `down` succeeds but
the raw volume-teardown invocation raises (timeout or spawn error) jumps
to the enclosing `except`: the record is still in the registry
afterwards, unchanged — teardown failure does prevent removal. -/
theorem c5_delete_counterexample :
    containsKey "one" stOne.instances = true ∧
    delete_instance_async stOne "one" (true, "") (true, "") true = stOne ∧
    containsKey "one"
      (delete_instance_async stOne "one" (true, "") (true, "") true).instances = true := by
  refine ⟨by decide, by decide, by decide⟩

/-- C5 (amended): `delete_instance_async` removes the record and persists
whenever it is not the case that the `down` invocation succeeded and the
volume teardown raised; in that remaining case the exception skips both
the removal and `save_config`, so the record survives. -/
theorem c5_delete_removal (st : AppState) (k : String) (stopR downR : Bool × String)
    (volRaises : Bool) :
    ((downR.1 && volRaises) = false → containsKey k st.instances = true →
      containsKey k (delete_instance_async st k stopR downR volRaises).instances = false ∧
      (delete_instance_async st k stopR downR volRaises).disk =
        (delete_instance_async st k stopR downR volRaises).instances) ∧
    ((downR.1 && volRaises) = true → containsKey k st.instances = true →
      containsKey k (delete_instance_async st k stopR downR volRaises).instances = true) := by
  have hst1 : containsKey k (if statusOf k st.instances = some .running
      then stop_instance_async st k stopR else st).instances = containsKey k st.instances := by
    by_cases hrun : statusOf k st.instances = some .running
    · rw [if_pos hrun]
      by_cases hs : stopR.1 = true <;>
        simp [stop_instance_async, hs, containsKey_setStatus]
    · rw [if_neg hrun]
  constructor
  · intro hdv hk
    unfold delete_instance_async
    rw [hdv]
    have hck : containsKey k (if statusOf k st.instances = some .running
        then stop_instance_async st k stopR else st).instances = true := by
      rw [hst1]; exact hk
    simp only [Bool.false_eq_true, if_false, hck, if_true]
    exact ⟨containsKey_removeKey _ _, trivial⟩
  · intro hdv hk
    unfold delete_instance_async
    rw [hdv]
    simp only [if_true]
    rw [hst1]
    exact hk

/-- C5 witness: a delete whose `down` fails (without raising) still ends
with the record gone and the registry persisted. -/
theorem c5_delete_removal_witness :
    containsKey "one" stOne.instances = true ∧
    containsKey "one"
      (delete_instance_async stOne "one" (true, "") (false, "x") false).instances = false :=
  ⟨by decide, ((c5_delete_removal stOne "one" (true, "") (false, "x") false).1 rfl (by decide)).1⟩

/-- `instOne` after a compose file has been generated for it. -/
def instWithCompose : ToadboxInstance :=
  { instOne with compose_file := some "/work/one/.toadbox/docker-compose.yml" }

theorem get_compose_status_eq (inst : ToadboxInstance) (df dcf : Bool)
    (probe ps : ProcOutcome) (f : String) (hcf : inst.compose_file = some f) :
    get_compose_status inst df dcf probe ps =
      (if psReached df dcf probe then psResult inst ps else .error) := by
  unfold get_compose_status psReached
  rw [hcf]
  cases df with
  | false => cases dcf <;> simp
  | true =>
    cases probe with
    | ret rc out err =>
      by_cases h : (rc == 0) = true
      · simp [h]
      · have hf : (rc == 0) = false := by simpa using h
        cases dcf <;> simp [hf]
    | timedOut out err => simp
    | osError e => simp

/-- C7 counterexample: the claim requires `error` on a non-zero `ps` exit
with no clear not-running signal; with the tools available and the probe
succeeding, a `ps` that exits 1 makes `get_compose_status` return
`stopped`, not `error`. -/
theorem c7_status_counterexample :
    instWithCompose.compose_file.isSome = true ∧
    psReached true true (.ret 0 "" "") = true ∧
    get_compose_status instWithCompose true true (.ret 0 "" "") (.ret 1 "" "")
      = .stopped := by
  refine ⟨rfl, by decide, by decide⟩

/-- C7 (amended): with no compose file the status is `stopped` without
consuming any process outcome; when no `ps` command line can be selected
(tools missing, or the probe raised with `docker` present) the status is
`error`; otherwise a returned `ps` yields `running` exactly on exit 0
with the service name in stdout and `stopped` on any other exit (a
non-zero exit is reported as `stopped`, not `error`), while a raised
timeout or spawn error yields `error`. -/
theorem c7_status_reconciler (inst : ToadboxInstance) (df dcf : Bool)
    (probe ps : ProcOutcome) :
    (inst.compose_file = none →
      get_compose_status inst df dcf probe ps = .stopped) ∧
    (inst.compose_file.isSome = true → psReached df dcf probe = false →
      get_compose_status inst df dcf probe ps = .error) ∧
    (inst.compose_file.isSome = true → psReached df dcf probe = true →
      (∀ rc out err, ps = .ret rc out err →
        get_compose_status inst df dcf probe ps =
          (if rc == 0 && serviceListedRunning inst out then .running else .stopped)) ∧
      (∀ out err, ps = .timedOut out err →
        get_compose_status inst df dcf probe ps = .error) ∧
      (∀ e, ps = .osError e →
        get_compose_status inst df dcf probe ps = .error)) := by
  refine ⟨?_, ?_, ?_⟩
  · intro h
    simp [get_compose_status, h]
  · intro h1 h2
    cases hcf : inst.compose_file with
    | none => rw [hcf] at h1; simp at h1
    | some f =>
      rw [get_compose_status_eq inst df dcf probe ps f hcf, h2]
      simp
  · intro h1 h2
    cases hcf : inst.compose_file with
    | none => rw [hcf] at h1; simp at h1
    | some f =>
      rw [get_compose_status_eq inst df dcf probe ps f hcf, h2]
      refine ⟨?_, ?_, ?_⟩
      · intro rc out err hps
        subst hps
        simp [psResult]
      · intro out err hps
        subst hps
        simp [psResult]
      · intro e hps
        subst hps
        simp [psResult]

/-- C7 witness: the amended characterization evaluated at a concrete
successful `ps` query listing the service. -/
theorem c7_status_reconciler_witness :
    instWithCompose.compose_file.isSome = true ∧
    psReached true true (ProcOutcome.ret 0 "" "") = true ∧
    get_compose_status instWithCompose true true (.ret 0 "" "") (.ret 0 "one alpha" "") =
      (if (0 : Int) == 0 && serviceListedRunning instWithCompose "one alpha"
       then .running else .stopped) := by
  refine ⟨rfl, by decide, ?_⟩
  exact ((c7_status_reconciler instWithCompose true true (.ret 0 "" "")
    (.ret 0 "one alpha" "")).2.2 rfl (by decide)).1 0 "one alpha" "" rfl

/-- C8 counterexample: the claim requires a timed-out invocation's detail
to be the trimmed stderr (here `"boom"`); the source returns the fixed
message `"compose timed out"` instead. -/
theorem c8_driver_counterexample :
    run_docker_compose false true (.ret 1 "" "") (.timedOut "" "boom")
      = (false, "compose timed out") ∧
    pyStrip "boom" = "boom" := by
  refine ⟨by decide, by decide⟩

/-- C8 (amended): `run_docker_compose` is total over the modelled failure
modes (the source catches exactly these); when no orchestration binary is
selectable it returns the fixed tool-not-found message; a returned
invocation yields `(exit == 0, trimmed stderr if non-empty else trimmed
stdout)` — so any non-zero exit is `(False, <that detail>)`; a timeout
yields the fixed `"compose timed out"` and a spawn failure the prefixed
`OSError` text. -/
theorem c8_driver_failures (df dcf : Bool) (probe main : ProcOutcome) :
    ((probeSaysPlugin df probe || dcf) = false →
      run_docker_compose df dcf probe main =
        (false, "Neither \x27docker compose\x27 nor \x27docker-compose\x27 is available")) ∧
    ((probeSaysPlugin df probe || dcf) = true →
      (∀ rc out err, main = .ret rc out err →
        run_docker_compose df dcf probe main =
          (rc == 0, if pyStrip err ≠ "" then pyStrip err else pyStrip out)) ∧
      (∀ out err, main = .timedOut out err →
        run_docker_compose df dcf probe main = (false, "compose timed out")) ∧
      (∀ e, main = .osError e →
        run_docker_compose df dcf probe main = (false, "Failed to run compose: " ++ e))) := by
  constructor
  · intro h
    simp [run_docker_compose, h]
  · intro h
    refine ⟨?_, ?_, ?_⟩
    · intro rc out err hm
      subst hm
      simp [run_docker_compose, h]
    · intro out err hm
      subst hm
      simp [run_docker_compose, h]
    · intro e hm
      subst hm
      simp [run_docker_compose, h]

/-- C8 witness: a non-zero exit evaluated concretely — the detail is the
trimmed stderr. -/
theorem c8_driver_failures_witness :
    (probeSaysPlugin false (.ret 1 "" "") || true) = true ∧
    run_docker_compose false true (.ret 1 "" "") (.ret 2 "out" " err ") =
      ((2 : Int) == 0, if pyStrip " err " ≠ "" then pyStrip " err " else pyStrip "out") := by
  refine ⟨by decide, ?_⟩
  exact ((c8_driver_failures false true (.ret 1 "" "") (.ret 2 "out" " err ")).2
    (by decide)).1 2 "out" " err " rfl

/-- C9 counterexample: the claim requires records with unknown extra
fields to load successfully with those fields ignored; a record carrying
the extra key `"extra"` makes `from_dict` raise `TypeError`
(`cls(**data)` rejects unknown keywords), so the load fails instead. -/
theorem c9_load_counterexample :
    dataclassKeys.contains "extra" = false ∧
    ToadboxInstance.from_dict (instOne.to_dict ++ [("extra", JValue.jnull)]) = none := by
  refine ⟨by decide, by decide⟩

theorem lookupKey_append_of_some {k : String} {d : List (String × JValue)}
    {x : JValue} (h : lookupKey k d = some x) (e : List (String × JValue)) :
    lookupKey k (d ++ e) = some x := by
  induction d with
  | nil => simp [lookupKey] at h
  | cons kv rest ih =>
    rw [List.cons_append]
    by_cases hkv : kv.1 = k
    · rw [lookupKey, if_pos hkv] at h ⊢
      exact h
    · rw [lookupKey, if_neg hkv] at h ⊢
      exact ih h

/-- C9 (amended): a stored record missing `status` loads with status
`stopped`, and the two computed-property keys `service_name` and
`hostname` are popped and ignored; but any other key unknown to the
dataclass makes `cls(**data)` raise `TypeError`, so the record — and with
it the whole registry load — fails instead of ignoring the field. -/
theorem c9_load_compat :
    (∀ i : ToadboxInstance,
      ToadboxInstance.from_dict (i.to_dict.filter (fun kv => kv.1 != "status")) =
        some { i with status := .stopped }) ∧
    (∀ i : ToadboxInstance,
      ToadboxInstance.from_dict
        (i.to_dict ++ [("service_name", .jstr "sn"), ("hostname", .jstr "hn")]) =
        some i) ∧
    (∀ (i : ToadboxInstance) (k : String) (v : JValue),
      dataclassKeys.contains k = false → (k == "service_name") = false →
      (k == "hostname") = false →
      ToadboxInstance.from_dict (i.to_dict ++ [(k, v)]) = none) := by
  refine ⟨?_, ?_, ?_⟩
  · intro i
    cases i with
    | mk nm wf cc mm pr sp vp pu pg st cf ci =>
      cases st <;> cases cf <;> cases ci <;> rfl
  · intro i
    cases i with
    | mk nm wf cc mm pr sp vp pu pg st cf ci =>
      cases st <;> cases cf <;> cases ci <;> rfl
  · intro i k v hk hs hh
    have hlk : lookupKey "status" (i.to_dict ++ [(k, v)]) =
        some (.jstr i.status.value) :=
      lookupKey_append_of_some
        (show lookupKey "status" i.to_dict = some (JValue.jstr i.status.value) from rfl) _
    have hfilter : (i.to_dict ++ [(k, v)]).filter
        (fun kv => kv.1 != "service_name" && kv.1 != "hostname") =
        i.to_dict.filter (fun kv => kv.1 != "service_name" && kv.1 != "hostname")
          ++ [(k, v)] := by
      rw [List.filter_append]
      congr 1
      have hp : (k != "service_name" && k != "hostname") = true := by
        simp [bne, hs, hh]
      simp [List.filter_cons, hp]
    have hall : ((i.to_dict.filter
        (fun kv => kv.1 != "service_name" && kv.1 != "hostname") ++ [(k, v)]).all
        (fun kv => dataclassKeys.contains kv.1)) = false := by
      have hone : ([(k, v)].all (fun kv => dataclassKeys.contains kv.1)) = false := by
        simp only [List.all_cons, List.all_nil, Bool.and_true]
        exact hk
      rw [List.all_append, hone, Bool.and_false]
    simp only [ToadboxInstance.from_dict, hlk, InstanceStatus.ofValue_value,
      hfilter, hall, Bool.false_eq_true, if_false]

/-- C9 witness: the missing-status default and the unknown-key failure
evaluated at concrete records. -/
theorem c9_load_compat_witness :
    ToadboxInstance.from_dict (instTwo.to_dict.filter (fun kv => kv.1 != "status")) =
      some { instTwo with status := .stopped } ∧
    dataclassKeys.contains "extra2" = false ∧
    ToadboxInstance.from_dict (instTwo.to_dict ++ [("extra2", JValue.jnum 7)]) = none :=
  ⟨c9_load_compat.1 instTwo, by decide,
   c9_load_compat.2.2 instTwo "extra2" (JValue.jnum 7) (by decide) (by decide) (by decide)⟩
